import Mathlib

/-!
# A verification development for the `gog` OpCache

This file gives a shallow embedding of the cache core of the `gog`
repository (`opcache.go`) and proves properties about it.

Modelling conventions:
* Go byte strings are `List Nat` (one `Nat` per byte).
* `time.Time` and `time.Duration` (an `int64` nanosecond count, possibly
  negative) are `Int`; each operation takes the current instant `now : Int`
  explicitly where the Go code calls `time.Now()`.
* The Go map `map[string]*opResult[T]` is the function `Key → Option (opResult T E)`.
* Go `error` values are `Option E` (`none` = nil error) for a type parameter `E`.
* A caller-supplied operation closure is represented by the value pair it
  would return, plus Booleans in the outcome recording whether the closure
  was executed synchronously and whether a background refresh was launched.
-/

set_option autoImplicit false

namespace Gog

/-- Go byte strings: a list of bytes. -/
abbrev Key := List Nat

/-! ## SHA-1 (`crypto/sha1`, used by `transformKey`)

A faithful executable SHA-1 over byte lists, all word arithmetic `% 2^32`. -/

/-- Rotate a 32-bit word (`x < 2^32`) left by `n`. -/
def rotl32 (n x : Nat) : Nat :=
  (x * 2 ^ n + x / 2 ^ (32 - n)) % 4294967296

/-- 32-bit complement. -/
def compl32 (x : Nat) : Nat :=
  4294967295 - x % 4294967296

/-- The SHA-1 round functions: Ch, Parity, Maj, Parity. -/
def sha1F (t b c d : Nat) : Nat :=
  if t < 20 then (b &&& c) ||| (compl32 b &&& d)
  else if t < 40 then b ^^^ c ^^^ d
  else if t < 60 then (b &&& c) ||| (b &&& d) ||| (c &&& d)
  else b ^^^ c ^^^ d

/-- The SHA-1 round constants. -/
def sha1K (t : Nat) : Nat :=
  if t < 20 then 1518500249
  else if t < 40 then 1859775393
  else if t < 60 then 2400959708
  else 3395469782

/-- Pack bytes into big-endian 32-bit words. -/
def toWords : List Nat → List Nat
  | b0 :: b1 :: b2 :: b3 :: rest =>
      (((b0 * 256 + b1) * 256 + b2) * 256 + b3) :: toWords rest
  | _ => []

/-- Extend the 16 message words to 80.  `acc` holds the words produced so far
in reverse order (most recent first), so `acc.getD 2 0` is `w[i-3]`,
`acc.getD 7 0` is `w[i-8]`, and so on. -/
def extendW (acc : List Nat) : Nat → List Nat
  | 0 => acc.reverse
  | n + 1 =>
      extendW
        (rotl32 1 (acc.getD 2 0 ^^^ acc.getD 7 0 ^^^ acc.getD 13 0 ^^^ acc.getD 15 0) :: acc) n

/-- The 80-round SHA-1 compression loop; the fuel counts down from 80, so the
round index is `80 - fuel`. -/
def sha1Loop (w : List Nat) : Nat → Nat × Nat × Nat × Nat × Nat → Nat × Nat × Nat × Nat × Nat
  | 0, s => s
  | n + 1, (a, b, c, d, e) =>
      let t := 80 - (n + 1)
      let tmp := (rotl32 5 a + sha1F t b c d + e + w.getD t 0 + sha1K t) % 4294967296
      sha1Loop w n (tmp, a, rotl32 30 b, c, d)

/-- Process one 64-byte block. -/
def sha1Block (h : Nat × Nat × Nat × Nat × Nat) (block : List Nat) :
    Nat × Nat × Nat × Nat × Nat :=
  let w := extendW (toWords block).reverse 64
  let (h0, h1, h2, h3, h4) := h
  let (a, b, c, d, e) := sha1Loop w 80 (h0, h1, h2, h3, h4)
  ((h0 + a) % 4294967296, (h1 + b) % 4294967296, (h2 + c) % 4294967296,
   (h3 + d) % 4294967296, (h4 + e) % 4294967296)

/-- Split a byte list into 64-byte chunks; the fuel (the list's length at
the outer call in `chunks64`) bounds the recursion structurally and is never
exhausted, since a nonempty list loses at least one element per step. -/
def chunksGo : Nat → List Nat → List (List Nat)
  | _, [] => []
  | 0, _ :: _ => []
  | fuel + 1, b :: rest => ((b :: rest).take 64) :: chunksGo fuel ((b :: rest).drop 64)

/-- Split a byte list into 64-byte chunks. -/
def chunks64 (l : List Nat) : List (List Nat) :=
  chunksGo l.length l

/-- `n` as `k` big-endian bytes. -/
def bigEndianBytes : Nat → Nat → List Nat
  | 0, _ => []
  | k + 1, n => (n / 256 ^ k % 256) :: bigEndianBytes k n

/-- SHA-1 message padding: a `0x80` byte, zeros up to 56 mod 64, then the
bit length as 8 big-endian bytes. -/
def sha1Pad (msg : List Nat) : List Nat :=
  msg ++ 128 :: (List.replicate ((119 - msg.length % 64) % 64) 0 ++ bigEndianBytes 8 (8 * msg.length))

/-- A 32-bit word as 4 big-endian bytes. -/
def word2bytes (x : Nat) : List Nat :=
  [x / 16777216 % 256, x / 65536 % 256, x / 256 % 256, x % 256]

/-- The 20-byte SHA-1 digest of a byte list (`sha1.Sum` in Go). -/
def sha1Bytes (msg : List Nat) : List Nat :=
  let h := (chunks64 (sha1Pad msg)).foldl sha1Block
    (1732584193, 4023233417, 2562383102, 271733878, 3285377520)
  word2bytes h.1 ++ word2bytes h.2.1 ++ word2bytes h.2.2.1 ++
    word2bytes h.2.2.2.1 ++ word2bytes h.2.2.2.2

set_option maxRecDepth 100000 in
/-- The FIPS 180-1 test vector: `SHA1("abc") = a9993e36...d89d`. -/
theorem sha1Bytes_abc :
    sha1Bytes [97, 98, 99] =
      [169, 153, 62, 54, 71, 6, 129, 106, 186, 62, 37, 113,
       120, 80, 194, 108, 156, 208, 216, 157] := by
  decide

/-- `transformKey` (opcache.go:186-195): keys longer than 100 bytes are
replaced by their SHA-1 digest, shorter keys pass through unchanged. -/
def transformKey (key : Key) : Key :=
  if key.length > 100 then sha1Bytes key else key

/-! ## The cache data model (`opcache.go`) -/

variable {T E : Type}

/-- `opResult` (opcache.go:198-206): one cached entry.  The Go `reloadMu`
lock guards the `reloading` flag; the sequential model keeps just the flag,
and the locking protocol itself is modelled separately by `ReloadStep`. -/
structure opResult (T E : Type) where
  expiresAt : Int
  graceExpiresAt : Int
  result : T
  resultErr : Option E
  reloading : Bool
deriving DecidableEq

/-- `OpCacheConfig` (opcache.go:32-49).  `ErrorExpiration` returns
`(discard, expiration, graceExpiration)`; `none` components leave the
configured defaults in place. -/
structure OpCacheConfig (E : Type) where
  ResultExpiration : Int
  ResultGraceExpiration : Int
  ErrorExpiration : Option (E → Bool × Option Int × Option Int)

/-- The `keyResults` map of an `OpCache` (opcache.go:64). -/
def Store (T E : Type) := Key → Option (opResult T E)

/-- The map of a freshly constructed cache (`NewOpCache`, opcache.go:68-73). -/
def emptyStore (T E : Type) : Store T E := fun _ => none

/-- `getCachedOpResult` (opcache.go:75-80). -/
def getCachedOpResult (store : Store T E) (key : Key) : Option (opResult T E) :=
  store key

/-- `setCachedOpResult` (opcache.go:82-86). -/
def setCachedOpResult (store : Store T E) (key : Key) (r : opResult T E) : Store T E :=
  fun k => if k = key then some r else store k

/-- `newOpResult` (opcache.go:209-217): timestamps relative to `now`
(`time.Now()` in Go); the `reloading` flag starts out unset (Go zero value). -/
def newOpResult (now : Int) (result : T) (resultErr : Option E)
    (expiration graceExpiration : Int) : opResult T E :=
  { expiresAt := now + expiration
    graceExpiresAt := now + (expiration + graceExpiration)
    result := result
    resultErr := resultErr
    reloading := false }

/-- `valid` (opcache.go:220-222); `time.Now().Before(t)` is `now < t`, and a
nil receiver is never valid. -/
def valid : Option (opResult T E) → Int → Bool
  | none, _ => false
  | some r, now => decide (now < r.expiresAt)

/-- `graceValid` (opcache.go:225-227). -/
def graceValid : Option (opResult T E) → Int → Bool
  | none, _ => false
  | some r, now => decide (now < r.graceExpiresAt)

/-- `Evict` (opcache.go:89-98): delete every entry that is not grace-valid. -/
def Evict (store : Store T E) (now : Int) : Store T E :=
  fun k =>
    match store k with
    | some r => if graceValid (some r) now then some r else none
    | none => none

/-- The outcome of the inner `execOpAndCache` closure (opcache.go:126-144):
the pair it returns, the map afterwards, and whether an entry was stored. -/
structure ExecOutcome (T E : Type) where
  result : T
  resultErr : Option E
  store : Store T E
  stored : Bool

/-- `execOpAndCache` (opcache.go:126-144): run the operation (its would-be
return pair is `opRes`), consult `ErrorExpiration` on a non-nil error
(possibly discarding the result or overriding the durations), and otherwise
store a `newOpResult` built at instant `now`.  `key` is already transformed. -/
def execOpAndCache (cfg : OpCacheConfig E) (now : Int) (key : Key)
    (opRes : T × Option E) (store : Store T E) : ExecOutcome T E :=
  let result := opRes.1
  let resultErr := opRes.2
  let expiration := cfg.ResultExpiration
  let graceExpiration := cfg.ResultGraceExpiration
  match resultErr, cfg.ErrorExpiration with
  | some err, some errorExpiration =>
      let (discard, exp, graceExp) := errorExpiration err
      if discard then
        ⟨result, resultErr, store, false⟩
      else
        let expiration := match exp with | some e => e | none => expiration
        let graceExpiration := match graceExp with | some g => g | none => graceExpiration
        ⟨result, resultErr,
          setCachedOpResult store key (newOpResult now result resultErr expiration graceExpiration),
          true⟩
  | _, _ =>
      ⟨result, resultErr,
        setCachedOpResult store key (newOpResult now result resultErr expiration graceExpiration),
        true⟩

/-- Mark the entry currently stored under `key` as being reloaded
(the `cachedResult.reloading = true` write at opcache.go:172; in Go this
mutates the entry the map points to, so here the entry at `key` is updated). -/
def setReloading (store : Store T E) (key : Key) : Store T E :=
  fun k =>
    if k = key then (store k).map (fun c => { c with reloading := true }) else store k

/-- The outcome of one `Get` call: the returned pair, the map at return,
whether the operation ran synchronously (`execOpAndCache` on the caller,
opcache.go:148), and whether a background refresh goroutine was launched
(`go execOpAndCache()`, opcache.go:177). -/
structure GetOutcome (T E : Type) where
  result : T
  resultErr : Option E
  store : Store T E
  opCalled : Bool
  launched : Bool

/-- `Get` (opcache.go:113-180), sequentialised.  The Go nil-pointer lookup is
the `none` branch (on a nil entry both `valid` and `graceValid` are false, so
Go falls through to the synchronous path).  On the grace path the launched
goroutine's effect is applied separately by `applyRefresh`. -/
def Get (cfg : OpCacheConfig E) (store : Store T E) (now : Int) (key0 : Key)
    (opRes : T × Option E) : GetOutcome T E :=
  let key := transformKey key0
  match getCachedOpResult store key with
  | none =>
      let o := execOpAndCache cfg now key opRes store
      ⟨o.result, o.resultErr, o.store, true, false⟩
  | some c =>
      if valid (some c) now then
        ⟨c.result, c.resultErr, store, false, false⟩
      else if graceValid (some c) now then
        if c.reloading then
          ⟨c.result, c.resultErr, store, false, false⟩
        else
          ⟨c.result, c.resultErr, setReloading store key, false, true⟩
      else
        let o := execOpAndCache cfg now key opRes store
        ⟨o.result, o.resultErr, o.store, true, false⟩

/-- The effect of the background refresh goroutine launched at
opcache.go:177 once it runs, at instant `now'`, with the operation returning
`opRes'`; `key` is the transformed key captured by the closure. -/
def applyRefresh (cfg : OpCacheConfig E) (now' : Int) (key : Key)
    (opRes' : T × Option E) (store : Store T E) : Store T E :=
  (execOpAndCache cfg now' key opRes' store).store

/-- The number of op executions attributable to one `Get` call: a synchronous
execution (opcache.go:148) plus a launched background refresh (opcache.go:177). -/
def invocations (g : GetOutcome T E) : Nat :=
  (if g.opCalled then 1 else 0) + (if g.launched then 1 else 0)

/-! ## The double-checked reload claim protocol (opcache.go:157-177)

An interleaving model of concurrent `Get` callers racing on one Grace-window
entry's `reloading` flag.  Each caller performs two atomic actions, exactly
as the Go code's lock regime permits: the flag read under `reloadMu.RLock`
(lines 157-159), and the re-check-then-set critical section under
`reloadMu.Lock` (lines 166-173).  `go execOpAndCache()` (line 177) is run
exactly by the callers that finish as `done true`. -/

/-- Where one caller stands in the `Get` grace path. -/
inductive Phase where
  /-- About to read the `reloading` flag under the shared lock (line 157). -/
  | start
  /-- Read `false`; about to take the exclusive lock and re-check (line 166). -/
  | claiming
  /-- Returned; `launched` records whether this caller launched the refresh. -/
  | done (launched : Bool)
deriving DecidableEq

/-- The shared `reloading` flag together with every caller's phase. -/
structure RaceState where
  reloading : Bool
  phases : List Phase
deriving DecidableEq

/-- One atomic action of one caller `i` on the shared flag. -/
inductive ReloadStep : RaceState → RaceState → Prop where
  /-- Lines 157-163: the shared-lock read sees `true`; return, no launch. -/
  | readBusy (s : RaceState) (i : Nat) (hp : s.phases.get? i = some .start)
      (hr : s.reloading = true) :
      ReloadStep s ⟨true, s.phases.set i (.done false)⟩
  /-- Lines 157-163: the shared-lock read sees `false`; go try to claim. -/
  | readIdle (s : RaceState) (i : Nat) (hp : s.phases.get? i = some .start)
      (hr : s.reloading = false) :
      ReloadStep s ⟨false, s.phases.set i .claiming⟩
  /-- Lines 166-171: under the exclusive lock the re-check sees `true`;
  someone else claimed the reload in between, return without launching. -/
  | recheckBusy (s : RaceState) (i : Nat) (hp : s.phases.get? i = some .claiming)
      (hr : s.reloading = true) :
      ReloadStep s ⟨true, s.phases.set i (.done false)⟩
  /-- Lines 172-177: still unclaimed; set the flag and launch the refresh. -/
  | claim (s : RaceState) (i : Nat) (hp : s.phases.get? i = some .claiming)
      (hr : s.reloading = false) :
      ReloadStep s ⟨true, s.phases.set i (.done true)⟩

/-- Whether a caller's phase records a launched refresh. -/
def isLaunch : Phase → Bool
  | .done true => true
  | _ => false

/-- How many callers have launched a background refresh. -/
def launchCount (s : RaceState) : Nat :=
  s.phases.countP isLaunch

/-- The initial state: flag unset (a fresh entry's zero value), `n` callers
all about to execute the grace path. -/
def raceInit (n : Nat) : RaceState :=
  ⟨false, List.replicate n .start⟩

/-! ## `MultiGet`, modelled from the spec -/

/-- Modelled from the spec: `OpCache.MultiGet` is code of this repository
that is absent from `src/` (only its example caller `MultiCalcFast` in
`opcache_example_test.go` is present), so it is modelled from spec §4.4.
Following the spec's steps: each position's entry is classified exactly as in
`Get` (step 1); Fresh and Grace positions are filled from the cached
value/error (step 2); the remaining positions form the synchronous batch,
passed to `batchOp` in one invocation whose parallel result slices fill those
slots in order (steps 3-4), each result also being stored through the same
`execOpAndCache` policy path; the output slices preserve the input key
order and length (step 6).  `classifyEntry` is the per-position
classification: a grace-valid (Fresh or Grace) entry yields its cached
pair and anything else is a miss.  The background batch for Grace positions
(step 5) stores entries later via `applyRefresh` and, per the spec, does not
affect the returned slices, so it is not part of this function's result. -/
def classifyEntry (store : Store T E) (now : Int) (tk : Key) : Option (T × Option E) :=
  match getCachedOpResult store tk with
  | some c => if graceValid (some c) now then some (c.result, c.resultErr) else none
  | none => none

def MultiGet [Inhabited T] (cfg : OpCacheConfig E) (store : Store T E) (now : Int)
    (keys : List Key) (batchOp : List Nat → List (T × Option E)) :
    List T × List (Option E) × Store T E :=
  let cached := keys.map fun k => classifyEntry store now (transformKey k)
  let missingIdxs := (List.range keys.length).filter fun i => (cached.getD i none).isNone
  let results := batchOp missingIdxs
  let filled := missingIdxs.zip results
  let outputs := (List.range keys.length).map fun i =>
    match cached.getD i none with
    | some p => p
    | none => (filled.lookup i).getD default
  let newStore := filled.foldl
    (fun st ir => (execOpAndCache cfg now (transformKey (keys.getD ir.1 [])) ir.2 st).store)
    store
  (outputs.map Prod.fst, outputs.map Prod.snd, newStore)

/-! ## Lemmas about the reload race -/

theorem countP_set_add {α : Type} (p : α → Bool) :
    ∀ (l : List α) (i : Nat) (a b : α), l.get? i = some b →
      (l.set i a).countP p + (if p b then 1 else 0) = l.countP p + (if p a then 1 else 0)
  | [], i, _, _, h => by simp at h
  | x :: xs, 0, a, b, h => by
      simp only [List.get?] at h
      cases h
      simp only [List.set, List.countP_cons]
      omega
  | x :: xs, i + 1, a, b, h => by
      simp only [List.get?] at h
      have ih := countP_set_add p xs i a b h
      simp only [List.set, List.countP_cons]
      omega

/-- The protocol invariant: while the flag is unset nobody has launched, and
once it is set at most one caller has. -/
def raceInv (s : RaceState) : Prop :=
  launchCount s ≤ if s.reloading then 1 else 0

theorem raceInv_step {s s' : RaceState} (h : ReloadStep s s') (hs : raceInv s) :
    raceInv s' := by
  unfold raceInv launchCount at *
  cases h with
  | readBusy i hp hr =>
      have hc := countP_set_add isLaunch s.phases i (.done false) _ hp
      rw [hr] at hs
      have hc' : List.countP isLaunch (s.phases.set i (Phase.done false)) =
          List.countP isLaunch s.phases := by simpa [isLaunch] using hc
      have hs' : List.countP isLaunch s.phases ≤ 1 := hs
      show List.countP isLaunch (s.phases.set i (Phase.done false)) ≤ 1
      omega
  | readIdle i hp hr =>
      have hc := countP_set_add isLaunch s.phases i .claiming _ hp
      rw [hr] at hs
      have hc' : List.countP isLaunch (s.phases.set i Phase.claiming) =
          List.countP isLaunch s.phases := by simpa [isLaunch] using hc
      have hs' : List.countP isLaunch s.phases ≤ 0 := hs
      show List.countP isLaunch (s.phases.set i Phase.claiming) ≤ 0
      omega
  | recheckBusy i hp hr =>
      have hc := countP_set_add isLaunch s.phases i (.done false) _ hp
      rw [hr] at hs
      have hc' : List.countP isLaunch (s.phases.set i (Phase.done false)) =
          List.countP isLaunch s.phases := by simpa [isLaunch] using hc
      have hs' : List.countP isLaunch s.phases ≤ 1 := hs
      show List.countP isLaunch (s.phases.set i (Phase.done false)) ≤ 1
      omega
  | claim i hp hr =>
      have hc := countP_set_add isLaunch s.phases i (.done true) _ hp
      rw [hr] at hs
      have hc' : List.countP isLaunch (s.phases.set i (Phase.done true)) =
          List.countP isLaunch s.phases + 1 := by simpa [isLaunch] using hc
      have hs' : List.countP isLaunch s.phases ≤ 0 := hs
      show List.countP isLaunch (s.phases.set i (Phase.done true)) ≤ 1
      omega

theorem raceInv_reachable {s s' : RaceState}
    (h : Relation.ReflTransGen ReloadStep s s') (hs : raceInv s) : raceInv s' := by
  induction h with
  | refl => exact hs
  | tail _ hstep ih => exact raceInv_step hstep ih

theorem raceInv_init (n : Nat) : raceInv (raceInit n) := by
  unfold raceInv raceInit launchCount
  simp only
  have : List.countP isLaunch (List.replicate n .start) = 0 := by
    apply List.countP_eq_zero.mpr
    intro a ha
    rw [List.eq_of_mem_replicate ha]
    simp [isLaunch]
  omega

/-- C1: however many concurrent `Get` callers race on one Grace-window
entry's `reloading` flag via the double-checked protocol of
opcache.go:157-177, in every state reachable from the initial one (flag
unset, all callers at the shared-lock read) at most one caller has launched
the background refresh. -/
theorem get_grace_single_refresh (n : Nat) (s : RaceState)
    (h : Relation.ReflTransGen ReloadStep (raceInit n) s) :
    launchCount s ≤ 1 := by
  have hinv := raceInv_reachable h (raceInv_init n)
  unfold raceInv at hinv
  by_cases hr : s.reloading <;> simp [hr] at hinv <;> omega

/-- Witness for C1: a concrete two-caller interleaving (caller 0 reads the
unset flag, claims, launches; caller 1 then reads the set flag and backs
off) reaches a state with exactly one launch. -/
theorem get_grace_single_refresh_witness :
    launchCount ⟨true, [Phase.done true, Phase.done false]⟩ ≤ 1 :=
  get_grace_single_refresh 2 ⟨true, [Phase.done true, Phase.done false]⟩
    (Relation.ReflTransGen.head (ReloadStep.readIdle (raceInit 2) 0 rfl rfl)
      (Relation.ReflTransGen.head
        (ReloadStep.claim ⟨false, [Phase.claiming, Phase.start]⟩ 0 rfl rfl)
        (Relation.ReflTransGen.head
          (ReloadStep.readBusy ⟨true, [Phase.done true, Phase.start]⟩ 1 rfl rfl)
          Relation.ReflTransGen.refl)))

/-! ## Lemmas about `Get` -/

theorem Get_fresh_eq {cfg : OpCacheConfig E} {store : Store T E} {now : Int}
    {key : Key} {opRes : T × Option E} {c : opResult T E}
    (hc : getCachedOpResult store (transformKey key) = some c)
    (hv : valid (some c) now = true) :
    Get cfg store now key opRes = ⟨c.result, c.resultErr, store, false, false⟩ := by
  simp [Get, hc, hv]

theorem Get_grace_busy_eq {cfg : OpCacheConfig E} {store : Store T E} {now : Int}
    {key : Key} {opRes : T × Option E} {c : opResult T E}
    (hc : getCachedOpResult store (transformKey key) = some c)
    (hv : valid (some c) now = false) (hg : graceValid (some c) now = true)
    (hrel : c.reloading = true) :
    Get cfg store now key opRes = ⟨c.result, c.resultErr, store, false, false⟩ := by
  simp [Get, hc, hv, hg, hrel]

theorem Get_grace_idle_eq {cfg : OpCacheConfig E} {store : Store T E} {now : Int}
    {key : Key} {opRes : T × Option E} {c : opResult T E}
    (hc : getCachedOpResult store (transformKey key) = some c)
    (hv : valid (some c) now = false) (hg : graceValid (some c) now = true)
    (hrel : c.reloading = false) :
    Get cfg store now key opRes =
      ⟨c.result, c.resultErr, setReloading store (transformKey key), false, true⟩ := by
  simp [Get, hc, hv, hg, hrel]

theorem Get_sync_some_eq {cfg : OpCacheConfig E} {store : Store T E} {now : Int}
    {key : Key} {opRes : T × Option E} {c : opResult T E}
    (hc : getCachedOpResult store (transformKey key) = some c)
    (hv : valid (some c) now = false) (hg : graceValid (some c) now = false) :
    Get cfg store now key opRes =
      ⟨(execOpAndCache cfg now (transformKey key) opRes store).result,
       (execOpAndCache cfg now (transformKey key) opRes store).resultErr,
       (execOpAndCache cfg now (transformKey key) opRes store).store, true, false⟩ := by
  simp [Get, hc, hv, hg]

theorem Get_sync_none_eq {cfg : OpCacheConfig E} {store : Store T E} {now : Int}
    {key : Key} {opRes : T × Option E}
    (hc : getCachedOpResult store (transformKey key) = none) :
    Get cfg store now key opRes =
      ⟨(execOpAndCache cfg now (transformKey key) opRes store).result,
       (execOpAndCache cfg now (transformKey key) opRes store).resultErr,
       (execOpAndCache cfg now (transformKey key) opRes store).store, true, false⟩ := by
  simp [Get, hc]

theorem valid_false_mono {o : Option (opResult T E)} {t1 t2 : Int}
    (h : valid o t1 = false) (hle : t1 ≤ t2) : valid o t2 = false := by
  cases o with
  | none => rfl
  | some r => simp [valid] at h ⊢; omega

theorem graceValid_false_mono {o : Option (opResult T E)} {t1 t2 : Int}
    (h : graceValid o t1 = false) (hle : t1 ≤ t2) : graceValid o t2 = false := by
  cases o with
  | none => rfl
  | some r => simp [graceValid] at h ⊢; omega

theorem invocations_le_one (cfg : OpCacheConfig E) (store : Store T E) (now : Int)
    (key : Key) (opRes : T × Option E) :
    invocations (Get cfg store now key opRes) ≤ 1 := by
  cases hc : getCachedOpResult store (transformKey key) with
  | none => rw [Get_sync_none_eq hc]; simp [invocations]
  | some c =>
      by_cases hv : valid (some c) now
      · rw [Get_fresh_eq hc hv]; simp [invocations]
      · by_cases hg : graceValid (some c) now
        · by_cases hrel : c.reloading
          · rw [Get_grace_busy_eq hc (by simpa using hv) hg hrel]; simp [invocations]
          · rw [Get_grace_idle_eq hc (by simpa using hv) hg (by simpa using hrel)]
            simp [invocations]
        · rw [Get_sync_some_eq hc (by simpa using hv) (by simpa using hg)]
          simp [invocations]

/-! ## The claims about `Get` -/

/-- C2: a `Get` that finds the current entry Fresh (`now < expiresAt`)
returns the cached value and error as-is, does not run the operation,
launches no refresh and leaves the map untouched; consequently, when the
entry current after a first `Get` is still fresh at the time of a second
`Get` for the same key, the two calls execute the wrapped operation at most
once in total. -/
theorem get_fresh_no_op_no_write (cfg : OpCacheConfig E) (store : Store T E)
    (now now2 : Int) (key : Key) (opRes opRes2 : T × Option E) :
    (∀ c, getCachedOpResult store (transformKey key) = some c →
      valid (some c) now = true →
      Get cfg store now key opRes = ⟨c.result, c.resultErr, store, false, false⟩) ∧
    (valid (getCachedOpResult (Get cfg store now key opRes).store (transformKey key)) now2
        = true →
      invocations (Get cfg store now key opRes) +
        invocations (Get cfg (Get cfg store now key opRes).store now2 key opRes2) ≤ 1) := by
  constructor
  · intro c hc hv
    exact Get_fresh_eq hc hv
  · intro hv2
    cases hc2 : getCachedOpResult (Get cfg store now key opRes).store (transformKey key) with
    | none => rw [hc2] at hv2; simp [valid] at hv2
    | some c =>
        rw [hc2] at hv2
        have h2 := @Get_fresh_eq T E cfg ((Get cfg store now key opRes).store) now2 key
          opRes2 c hc2 hv2
        have h1 := invocations_le_one cfg store now key opRes
        rw [h2]
        have h0 : invocations (⟨c.result, c.resultErr,
            (Get cfg store now key opRes).store, false, false⟩ : GetOutcome T E) = 0 := rfl
        omega

/-- Witness for C2 at a concrete fresh entry (stored at instant 0 with
expiration 10, read at instants 3 and 4). -/
theorem get_fresh_no_op_no_write_witness :
    (Get (⟨10, 5, none⟩ : OpCacheConfig Nat)
        (setCachedOpResult (emptyStore Nat Nat) [1] (newOpResult 0 7 none 10 5))
        3 [1] (9, none)
      = ⟨7, none, setCachedOpResult (emptyStore Nat Nat) [1] (newOpResult 0 7 none 10 5),
          false, false⟩) ∧
    (invocations (Get (⟨10, 5, none⟩ : OpCacheConfig Nat)
        (setCachedOpResult (emptyStore Nat Nat) [1] (newOpResult 0 7 none 10 5))
        3 [1] (9, none)) +
      invocations (Get (⟨10, 5, none⟩ : OpCacheConfig Nat)
        (Get (⟨10, 5, none⟩ : OpCacheConfig Nat)
          (setCachedOpResult (emptyStore Nat Nat) [1] (newOpResult 0 7 none 10 5))
          3 [1] (9, none)).store
        4 [1] (8, none)) ≤ 1) :=
  ⟨(get_fresh_no_op_no_write (⟨10, 5, none⟩ : OpCacheConfig Nat)
      (setCachedOpResult (emptyStore Nat Nat) [1] (newOpResult 0 7 none 10 5))
      3 4 [1] (9, none) (8, none)).1 (newOpResult 0 7 none 10 5) rfl (by decide),
   (get_fresh_no_op_no_write (⟨10, 5, none⟩ : OpCacheConfig Nat)
      (setCachedOpResult (emptyStore Nat Nat) [1] (newOpResult 0 7 none 10 5))
      3 4 [1] (9, none) (8, none)).2 (by decide)⟩

/-- C3: a `Get` that finds the current entry in the Grace window returns the
stored stale value and error immediately, runs no operation synchronously,
and its returned outcome is the same whatever pair the (background)
operation would produce — the refresh result cannot affect the triggering
call's return value. -/
theorem get_grace_returns_stale (cfg : OpCacheConfig E) (store : Store T E)
    (now : Int) (key : Key) (opRes : T × Option E) (c : opResult T E)
    (hc : getCachedOpResult store (transformKey key) = some c)
    (hv : valid (some c) now = false) (hg : graceValid (some c) now = true) :
    (Get cfg store now key opRes).result = c.result ∧
    (Get cfg store now key opRes).resultErr = c.resultErr ∧
    (Get cfg store now key opRes).opCalled = false ∧
    (∀ opRes', Get cfg store now key opRes' = Get cfg store now key opRes) := by
  by_cases hrel : c.reloading
  · rw [Get_grace_busy_eq hc hv hg hrel]
    exact ⟨rfl, rfl, rfl, fun opRes' => by
      rw [Get_grace_busy_eq hc hv hg hrel]⟩
  · rw [Get_grace_idle_eq hc hv hg (by simpa using hrel)]
    exact ⟨rfl, rfl, rfl, fun opRes' => by
      rw [Get_grace_idle_eq hc hv hg (by simpa using hrel)]⟩

/-- Witness for C3 at a concrete Grace-window entry (stored at instant 0
with expiration 10 and grace 5, read at instant 12). -/
theorem get_grace_returns_stale_witness :
    (Get (⟨10, 5, none⟩ : OpCacheConfig Nat)
        (setCachedOpResult (emptyStore Nat Nat) [1] (newOpResult 0 7 none 10 5))
        12 [1] (9, none)).result = 7 ∧
    (Get (⟨10, 5, none⟩ : OpCacheConfig Nat)
        (setCachedOpResult (emptyStore Nat Nat) [1] (newOpResult 0 7 none 10 5))
        12 [1] (9, none)).resultErr = none ∧
    (Get (⟨10, 5, none⟩ : OpCacheConfig Nat)
        (setCachedOpResult (emptyStore Nat Nat) [1] (newOpResult 0 7 none 10 5))
        12 [1] (9, none)).opCalled = false ∧
    (∀ opRes', Get (⟨10, 5, none⟩ : OpCacheConfig Nat)
        (setCachedOpResult (emptyStore Nat Nat) [1] (newOpResult 0 7 none 10 5))
        12 [1] opRes'
      = Get (⟨10, 5, none⟩ : OpCacheConfig Nat)
        (setCachedOpResult (emptyStore Nat Nat) [1] (newOpResult 0 7 none 10 5))
        12 [1] (9, none)) :=
  get_grace_returns_stale (⟨10, 5, none⟩ : OpCacheConfig Nat)
    (setCachedOpResult (emptyStore Nat Nat) [1] (newOpResult 0 7 none 10 5))
    12 [1] (9, none) (newOpResult 0 7 none 10 5) rfl (by decide) (by decide)

/-- C7: `Evict` removes exactly the entries whose grace window has lapsed
(`now ≥ graceExpiresAt`); an entry with `now < graceExpiresAt` survives,
mapped unchanged under its key, and a lapsed or absent entry is gone. -/
theorem evict_exactly_grace_expired (store : Store T E) (now : Int) (k : Key) :
    (∀ r, store k = some r →
      (now < r.graceExpiresAt → Evict store now k = some r) ∧
      (r.graceExpiresAt ≤ now → Evict store now k = none)) ∧
    (store k = none → Evict store now k = none) := by
  refine ⟨fun r hr => ⟨fun hlt => ?_, fun hge => ?_⟩, fun h => ?_⟩
  · simp [Evict, hr, graceValid, hlt]
  · simp [Evict, hr, graceValid]
    omega
  · simp [Evict, h]

/-- Witness for C7: a store holding one still-grace-valid and one lapsed
entry at instant 12; the sweep keeps the former and removes the latter. -/
theorem evict_exactly_grace_expired_witness :
    Evict
      (setCachedOpResult (setCachedOpResult (emptyStore Nat Nat) [1] (newOpResult 0 7 none 10 5))
        [2] (newOpResult 0 8 none 5 5)) 12 [1]
      = some (newOpResult 0 7 none 10 5) ∧
    Evict
      (setCachedOpResult (setCachedOpResult (emptyStore Nat Nat) [1] (newOpResult 0 7 none 10 5))
        [2] (newOpResult 0 8 none 5 5)) 12 [2]
      = none ∧
    Evict
      (setCachedOpResult (setCachedOpResult (emptyStore Nat Nat) [1] (newOpResult 0 7 none 10 5))
        [2] (newOpResult 0 8 none 5 5)) 12 [3]
      = none :=
  ⟨((evict_exactly_grace_expired _ 12 [1]).1 (newOpResult 0 7 none 10 5) rfl).1 (by decide),
   ((evict_exactly_grace_expired _ 12 [2]).1 (newOpResult 0 8 none 5 5) rfl).2 (by decide),
   (evict_exactly_grace_expired _ 12 [3]).2 rfl⟩

/-! ## The claims about `transformKey` -/

theorem sha1Bytes_length (msg : List Nat) : (sha1Bytes msg).length = 20 := by
  simp [sha1Bytes, word2bytes]

/-- C8: `transformKey` is deterministic; a key longer than 100 bytes maps to
the fixed-size 20-byte SHA-1 digest of its bytes, and a key of at most 100
bytes passes through unchanged. -/
theorem transformKey_spec (k k' : Key) :
    (k = k' → transformKey k = transformKey k') ∧
    (k.length > 100 → transformKey k = sha1Bytes k ∧ (transformKey k).length = 20) ∧
    (k.length ≤ 100 → transformKey k = k) := by
  refine ⟨fun h => by rw [h], fun h => ?_, fun h => ?_⟩
  · rw [transformKey, if_pos h]
    exact ⟨rfl, sha1Bytes_length k⟩
  · rw [transformKey, if_neg (by omega)]

/-- Witness for C8: a 101-byte key is digested to 20 bytes; a 3-byte key
passes through. -/
theorem transformKey_spec_witness :
    (transformKey (List.replicate 101 0) = sha1Bytes (List.replicate 101 0) ∧
      (transformKey (List.replicate 101 0)).length = 20) ∧
    transformKey [97, 98, 99] = [97, 98, 99] :=
  ⟨(transformKey_spec (List.replicate 101 0) []).2.1 (by simp),
   (transformKey_spec [97, 98, 99] []).2.2 (by simp)⟩

/-- C10: `transformKey` is injective on short keys: two distinct keys of at
most 100 bytes each pass through unchanged and keep distinct identifiers, so
a collision requires at least one key above the length threshold. -/
theorem transformKey_injective_short (k1 k2 : Key)
    (h1 : k1.length ≤ 100) (h2 : k2.length ≤ 100) (hne : k1 ≠ k2) :
    transformKey k1 = k1 ∧ transformKey k2 = k2 ∧ transformKey k1 ≠ transformKey k2 := by
  have e1 : transformKey k1 = k1 := by rw [transformKey, if_neg (by omega)]
  have e2 : transformKey k2 = k2 := by rw [transformKey, if_neg (by omega)]
  exact ⟨e1, e2, by rw [e1, e2]; exact hne⟩

/-- Witness for C10 on the distinct short keys `[1]` and `[2]`. -/
theorem transformKey_injective_short_witness :
    transformKey [1] = [1] ∧ transformKey [2] = [2] ∧ transformKey [1] ≠ transformKey [2] :=
  transformKey_injective_short [1] [2] (by decide) (by decide) (by decide)

/-! ## C4: discarded error results -/

theorem execOpAndCache_discard {cfg : OpCacheConfig E}
    {pol : E → Bool × Option Int × Option Int} (hpol : cfg.ErrorExpiration = some pol)
    {e : E} (hdiscard : (pol e).1 = true) (now : Int) (key : Key) (v : T)
    (store : Store T E) :
    execOpAndCache cfg now key (v, some e) store = ⟨v, some e, store, false⟩ := by
  rcases hpe : pol e with ⟨d, ex, gx⟩
  rw [hpe] at hdiscard
  simp only at hdiscard
  subst hdiscard
  simp [execOpAndCache, hpol, hpe]

/-- A configuration whose error-expiration policy discards every error
(used by the concrete C4 scenario). -/
def discardAllCfg : OpCacheConfig Nat := ⟨10, 10, some fun _ => (true, none, none)⟩

/-- A store holding one entry under key `[1]`, created at instant 0 with
expiration 10 and grace 10. -/
def graceStore : Store Nat Nat :=
  setCachedOpResult (emptyStore Nat Nat) [1] (newOpResult 0 42 none 10 10)

/-- Counterexample to C4 as stated: at instant 15 the entry for `[1]` is in
its Grace window, so `Get` launches a background refresh; the refresh runs at
instant 16, errs, and the policy discards the result, so no entry is stored —
yet the immediately following `Get` at instant 17 does *not* re-execute the
operation: the stale entry is still grace-valid, so it is served as-is, and
the set `reloading` flag suppresses even a new refresh. -/
theorem discard_background_refresh_cex :
    (Get discardAllCfg graceStore 15 [1] (0, some 7)).launched = true ∧
    applyRefresh discardAllCfg 16 [1] (0, some 7)
        (Get discardAllCfg graceStore 15 [1] (0, some 7)).store
      = (Get discardAllCfg graceStore 15 [1] (0, some 7)).store ∧
    (Get discardAllCfg
        (applyRefresh discardAllCfg 16 [1] (0, some 7)
          (Get discardAllCfg graceStore 15 [1] (0, some 7)).store)
        17 [1] (0, some 7)).opCalled = false ∧
    (Get discardAllCfg
        (applyRefresh discardAllCfg 16 [1] (0, some 7)
          (Get discardAllCfg graceStore 15 [1] (0, some 7)).store)
        17 [1] (0, some 7)).launched = false :=
  ⟨rfl, rfl, rfl, rfl⟩

/-- C4 amended: a *synchronous* operation execution (`Get` finding no usable
entry) whose error the policy marks `discard=true` stores nothing — the map
is left exactly as it was — and the immediately following `Get` for the same
key re-executes the operation; a discarded background refresh likewise
stores nothing, but (per the counterexample) a `Get` following it within the
stale entry's grace window serves the stale value without re-executing. -/
theorem discard_not_cached_reexecutes (cfg : OpCacheConfig E)
    (pol : E → Bool × Option Int × Option Int) (store : Store T E)
    (now1 now2 : Int) (key : Key) (v : T) (e : E) (opRes2 : T × Option E)
    (hpol : cfg.ErrorExpiration = some pol) (hdiscard : (pol e).1 = true)
    (hv : valid (getCachedOpResult store (transformKey key)) now1 = false)
    (hg : graceValid (getCachedOpResult store (transformKey key)) now1 = false)
    (hle : now1 ≤ now2) :
    (Get cfg store now1 key (v, some e)).store = store ∧
    (Get cfg store now1 key (v, some e)).opCalled = true ∧
    (Get cfg (Get cfg store now1 key (v, some e)).store now2 key opRes2).opCalled = true ∧
    (∀ st : Store T E, applyRefresh cfg now1 (transformKey key) (v, some e) st = st) := by
  have hexec := execOpAndCache_discard hpol hdiscard now1 (transformKey key) v store
  have hv2 := valid_false_mono hv hle
  have hg2 := graceValid_false_mono hg hle
  have hget : Get cfg store now1 key (v, some e) =
      ⟨(execOpAndCache cfg now1 (transformKey key) (v, some e) store).result,
       (execOpAndCache cfg now1 (transformKey key) (v, some e) store).resultErr,
       (execOpAndCache cfg now1 (transformKey key) (v, some e) store).store, true, false⟩ := by
    cases hc : getCachedOpResult store (transformKey key) with
    | none => exact Get_sync_none_eq hc
    | some c =>
        rw [hc] at hv hg
        exact Get_sync_some_eq hc hv hg
  rw [hget, hexec]
  refine ⟨rfl, rfl, ?_, fun st => ?_⟩
  · show (Get cfg store now2 key opRes2).opCalled = true
    cases hc : getCachedOpResult store (transformKey key) with
    | none => rw [Get_sync_none_eq hc]
    | some c =>
        rw [hc] at hv2 hg2
        rw [Get_sync_some_eq hc hv2 hg2]
  · show (execOpAndCache cfg now1 (transformKey key) (v, some e) st).store = st
    rw [execOpAndCache_discard hpol hdiscard]

/-- Witness for the amended C4: a discarded synchronous failure on the empty
store at instant 0, followed by a `Get` at instant 1. -/
theorem discard_not_cached_reexecutes_witness :
    (Get discardAllCfg (emptyStore Nat Nat) 0 [1] (0, some 7)).store = emptyStore Nat Nat ∧
    (Get discardAllCfg (emptyStore Nat Nat) 0 [1] (0, some 7)).opCalled = true ∧
    (Get discardAllCfg (Get discardAllCfg (emptyStore Nat Nat) 0 [1] (0, some 7)).store
      1 [1] (0, some 7)).opCalled = true ∧
    (∀ st : Store Nat Nat, applyRefresh discardAllCfg 0 (transformKey [1]) (0, some 7) st = st) :=
  discard_not_cached_reexecutes discardAllCfg (fun _ => (true, none, none))
    (emptyStore Nat Nat) 0 1 [1] 0 7 (0, some 7) rfl rfl rfl rfl (by decide)

/-! ## C5: the per-entry window invariant -/

/-- Counterexample to C5 as stated: Go durations are signed, and under a
configuration with `ResultGraceExpiration = -1` the cache stores an entry
whose `graceExpiresAt` lies strictly *before* its `expiresAt`, so
`expiresAt ≤ graceExpiresAt` does not hold for every stored entry under
every configuration. -/
theorem negative_grace_cex :
    (Get (⟨0, -1, none⟩ : OpCacheConfig Nat) (emptyStore Nat Nat) 0 [1] (5, none)).store [1]
      = some (newOpResult 0 5 none 0 (-1)) ∧
    (newOpResult 0 5 none 0 (-1) : opResult Nat Nat).graceExpiresAt
      < (newOpResult 0 5 none 0 (-1) : opResult Nat Nat).expiresAt :=
  ⟨rfl, by decide⟩

/-- C5 amended: for every entry built by `newOpResult`,
`graceExpiresAt − expiresAt` equals exactly the grace duration passed in
(the configured `ResultGraceExpiration` or its error-specific override), and
`expiresAt ≤ graceExpiresAt` holds whenever that duration is nonnegative
(a negative duration, expressible because Go durations are signed, violates
it); with no error policy configured, the entry `execOpAndCache` stores
under the queried key uses exactly the configured default durations. -/
theorem entry_grace_window_invariant (now : Int) (v : T) (err : Option E)
    (expiration graceExpiration : Int) (cfg : OpCacheConfig E) (key : Key)
    (opRes : T × Option E) (store : Store T E)
    (hpol : cfg.ErrorExpiration = none) :
    ((newOpResult now v err expiration graceExpiration : opResult T E).graceExpiresAt -
      (newOpResult now v err expiration graceExpiration : opResult T E).expiresAt
        = graceExpiration) ∧
    (0 ≤ graceExpiration →
      (newOpResult now v err expiration graceExpiration : opResult T E).expiresAt ≤
        (newOpResult now v err expiration graceExpiration : opResult T E).graceExpiresAt) ∧
    ((execOpAndCache cfg now key opRes store).store key
      = some (newOpResult now opRes.1 opRes.2 cfg.ResultExpiration
          cfg.ResultGraceExpiration)) := by
  refine ⟨by simp [newOpResult], fun h => by simp [newOpResult]; omega, ?_⟩
  obtain ⟨v', err'⟩ := opRes
  cases err' <;> simp [execOpAndCache, hpol, setCachedOpResult]

/-- Witness for the amended C5 at concrete durations (grace 5 ≥ 0). -/
theorem entry_grace_window_invariant_witness :
    ((newOpResult 0 7 none 10 5 : opResult Nat Nat).graceExpiresAt -
      (newOpResult 0 7 none 10 5 : opResult Nat Nat).expiresAt = 5) ∧
    (0 ≤ (5 : Int) →
      (newOpResult 0 7 none 10 5 : opResult Nat Nat).expiresAt ≤
        (newOpResult 0 7 none 10 5 : opResult Nat Nat).graceExpiresAt) ∧
    ((execOpAndCache (⟨10, 5, none⟩ : OpCacheConfig Nat) 0 [1] (7, none)
        (emptyStore Nat Nat)).store [1]
      = some (newOpResult 0 7 none 10 5)) :=
  entry_grace_window_invariant 0 7 none 10 5 (⟨10, 5, none⟩ : OpCacheConfig Nat) [1]
    (7, none) (emptyStore Nat Nat) rfl

/-! ## C6: zero grace expiration -/

/-- A configuration with zero `ResultGraceExpiration` whose error policy
overrides the grace duration (used by the C6 counterexample). -/
def overrideGraceCfg : OpCacheConfig Nat := ⟨0, 0, some fun _ => (false, none, some 10)⟩

/-- Counterexample to C6 as stated: with `ResultGraceExpiration = 0` but an
error-expiration policy overriding the grace duration to 10, the error entry
stored at instant 0 is in a Grace window at instant 5 and `Get` there
launches a background refresh — zero `ResultGraceExpiration` alone does not
disable the grace/background-refresh path. -/
theorem zero_grace_override_cex :
    overrideGraceCfg.ResultGraceExpiration = 0 ∧
    (Get overrideGraceCfg
        (Get overrideGraceCfg (emptyStore Nat Nat) 0 [1] (0, some 3)).store
        5 [1] (0, none)).launched = true :=
  ⟨rfl, rfl⟩

/-- A store in which every entry's grace window is degenerate
(`graceExpiresAt ≤ expiresAt`). -/
def flatStore (store : Store T E) : Prop :=
  ∀ k r, store k = some r → r.graceExpiresAt ≤ r.expiresAt

/-- C6 amended: if `ResultGraceExpiration` is zero *and* no error-expiration
policy is configured (an error-specific grace override can re-enable the
path), the cache collapses to plain TTL semantics: the empty initial store
is degenerate, `Get` preserves degeneracy and never launches a background
refresh, a still-fresh hit is served from the cache with no side effect, and
otherwise the operation executes synchronously and its pair is returned. -/
theorem zero_grace_plain_ttl (cfg : OpCacheConfig E) (store : Store T E)
    (now : Int) (key : Key) (opRes : T × Option E)
    (hzero : cfg.ResultGraceExpiration = 0) (hpol : cfg.ErrorExpiration = none)
    (hstore : flatStore store) :
    flatStore (emptyStore T E) ∧
    (Get cfg store now key opRes).launched = false ∧
    flatStore (Get cfg store now key opRes).store ∧
    (valid (getCachedOpResult store (transformKey key)) now = false →
      (Get cfg store now key opRes).opCalled = true ∧
      (Get cfg store now key opRes).result = opRes.1 ∧
      (Get cfg store now key opRes).resultErr = opRes.2) ∧
    (∀ c, getCachedOpResult store (transformKey key) = some c →
      valid (some c) now = true →
      (Get cfg store now key opRes).result = c.result ∧
      (Get cfg store now key opRes).resultErr = c.resultErr ∧
      (Get cfg store now key opRes).opCalled = false) := by
  have hempty : flatStore (emptyStore T E) := by
    intro k r h
    exact absurd h (by simp [emptyStore])
  have hexec : execOpAndCache cfg now (transformKey key) opRes store =
      ⟨opRes.1, opRes.2,
        setCachedOpResult store (transformKey key)
          (newOpResult now opRes.1 opRes.2 cfg.ResultExpiration cfg.ResultGraceExpiration),
        true⟩ := by
    obtain ⟨v', err'⟩ := opRes
    cases err' <;> simp [execOpAndCache, hpol]
  have hflat' : flatStore
      (setCachedOpResult store (transformKey key)
        (newOpResult now opRes.1 opRes.2 cfg.ResultExpiration cfg.ResultGraceExpiration)) := by
    intro k r h
    rw [setCachedOpResult] at h
    by_cases hk : k = transformKey key
    · rw [if_pos hk] at h
      cases h
      simp [newOpResult, hzero]
    · rw [if_neg hk] at h
      exact hstore k r h
  have hgrace_degenerate : ∀ c : opResult T E,
      getCachedOpResult store (transformKey key) = some c →
      valid (some c) now = false → graceValid (some c) now = false := by
    intro c hc hv
    have hle := hstore (transformKey key) c hc
    simp [valid] at hv
    simp [graceValid]
    omega
  cases hc : getCachedOpResult store (transformKey key) with
  | none =>
      rw [Get_sync_none_eq hc, hexec]
      exact ⟨hempty, rfl, hflat', fun _ => ⟨rfl, rfl, rfl⟩,
        fun c hcc _ => absurd hcc (by simp)⟩
  | some c =>
      by_cases hv : valid (some c) now
      · rw [Get_fresh_eq hc hv]
        refine ⟨hempty, rfl, hstore, fun hv' => ?_, fun c' hcc hv' => ?_⟩
        · rw [hv] at hv'
          cases hv'
        · cases hcc
          exact ⟨rfl, rfl, rfl⟩
      · have hv' : valid (some c) now = false := by simpa using hv
        have hg' := hgrace_degenerate c hc hv'
        rw [Get_sync_some_eq hc hv' hg', hexec]
        refine ⟨hempty, rfl, hflat', fun _ => ⟨rfl, rfl, rfl⟩, fun c' hcc hvc => ?_⟩
        cases hcc
        rw [hv'] at hvc
        cases hvc

/-- Witness for the amended C6: a zero-grace, no-policy configuration over a
store holding one degenerate entry, read while fresh (instant 3) — no
refresh is launched and the cached pair is returned. -/
theorem zero_grace_plain_ttl_witness :
    flatStore (emptyStore Nat Nat) ∧
    (Get (⟨10, 0, none⟩ : OpCacheConfig Nat)
        (setCachedOpResult (emptyStore Nat Nat) [1] (newOpResult 0 7 none 10 0))
        3 [1] (9, none)).launched = false ∧
    flatStore (Get (⟨10, 0, none⟩ : OpCacheConfig Nat)
        (setCachedOpResult (emptyStore Nat Nat) [1] (newOpResult 0 7 none 10 0))
        3 [1] (9, none)).store ∧
    (valid (getCachedOpResult
        (setCachedOpResult (emptyStore Nat Nat) [1] (newOpResult 0 7 none 10 0))
        (transformKey [1])) 3 = false →
      (Get (⟨10, 0, none⟩ : OpCacheConfig Nat)
          (setCachedOpResult (emptyStore Nat Nat) [1] (newOpResult 0 7 none 10 0))
          3 [1] (9, none)).opCalled = true ∧
      (Get (⟨10, 0, none⟩ : OpCacheConfig Nat)
          (setCachedOpResult (emptyStore Nat Nat) [1] (newOpResult 0 7 none 10 0))
          3 [1] (9, none)).result = 9 ∧
      (Get (⟨10, 0, none⟩ : OpCacheConfig Nat)
          (setCachedOpResult (emptyStore Nat Nat) [1] (newOpResult 0 7 none 10 0))
          3 [1] (9, none)).resultErr = none) ∧
    (∀ c, getCachedOpResult
        (setCachedOpResult (emptyStore Nat Nat) [1] (newOpResult 0 7 none 10 0))
        (transformKey [1]) = some c →
      valid (some c) 3 = true →
      (Get (⟨10, 0, none⟩ : OpCacheConfig Nat)
          (setCachedOpResult (emptyStore Nat Nat) [1] (newOpResult 0 7 none 10 0))
          3 [1] (9, none)).result = c.result ∧
      (Get (⟨10, 0, none⟩ : OpCacheConfig Nat)
          (setCachedOpResult (emptyStore Nat Nat) [1] (newOpResult 0 7 none 10 0))
          3 [1] (9, none)).resultErr = c.resultErr ∧
      (Get (⟨10, 0, none⟩ : OpCacheConfig Nat)
          (setCachedOpResult (emptyStore Nat Nat) [1] (newOpResult 0 7 none 10 0))
          3 [1] (9, none)).opCalled = false) :=
  zero_grace_plain_ttl (⟨10, 0, none⟩ : OpCacheConfig Nat)
    (setCachedOpResult (emptyStore Nat Nat) [1] (newOpResult 0 7 none 10 0))
    3 [1] (9, none) rfl rfl
    (by
      intro k r h
      rw [setCachedOpResult] at h
      by_cases hk : k = [1]
      · rw [if_pos hk] at h
        cases h
        decide
      · rw [if_neg hk] at h
        exact absurd h (by simp [emptyStore]))

/-! ## C9: `MultiGet` output shape -/

/-- C9: `MultiGet` returns a value slice and an error slice whose lengths
equal the input key list's length, for any mix of fresh, grace-window and
missing/unusable keys; and each position whose key currently holds a
servable (grace-valid) entry is answered in place, at its own index, by
that entry's cached pair — the outputs line up with the input key order. -/
theorem multiGet_shape [Inhabited T] (cfg : OpCacheConfig E) (store : Store T E)
    (now : Int) (keys : List Key) (batchOp : List Nat → List (T × Option E)) :
    (MultiGet cfg store now keys batchOp).1.length = keys.length ∧
    (MultiGet cfg store now keys batchOp).2.1.length = keys.length ∧
    (∀ i k c, keys.get? i = some k →
      getCachedOpResult store (transformKey k) = some c →
      graceValid (some c) now = true →
      (MultiGet cfg store now keys batchOp).1.get? i = some c.result ∧
      (MultiGet cfg store now keys batchOp).2.1.get? i = some c.resultErr) := by
  refine ⟨by simp [MultiGet], by simp [MultiGet], ?_⟩
  intro i k c hk hc hg
  have hi : i < keys.length := by
    rw [List.get?_eq_some] at hk
    exact hk.1
  have hclass : classifyEntry store now (transformKey k) = some (c.result, c.resultErr) := by
    simp [classifyEntry, hc, hg]
  have hcached : (keys.map fun k' => classifyEntry store now (transformKey k')).get? i
      = some (classifyEntry store now (transformKey k)) := by
    rw [List.get?_map, hk]
    rfl
  have hgd : (keys.map fun k' => classifyEntry store now (transformKey k')).getD i none
      = some (c.result, c.resultErr) := by
    show ((keys.map fun k' => classifyEntry store now (transformKey k')).get? i).getD none
      = some (c.result, c.resultErr)
    rw [hcached, hclass]
    rfl
  constructor
  · show (MultiGet cfg store now keys batchOp).1.get? i = some c.result
    simp only [MultiGet]
    rw [List.get?_map, List.get?_map, List.get?_range hi]
    simp only [Option.map_some']
    rw [hgd]
  · show (MultiGet cfg store now keys batchOp).2.1.get? i = some c.resultErr
    simp only [MultiGet]
    rw [List.get?_map, List.get?_map, List.get?_range hi]
    simp only [Option.map_some']
    rw [hgd]

/-- Witness for C9: two keys, the first holding a fresh entry served in
place, the second a miss filled from the batch operation; both output
slices have length 2. -/
theorem multiGet_shape_witness :
    (MultiGet (⟨10, 5, none⟩ : OpCacheConfig Nat)
        (setCachedOpResult (emptyStore Nat Nat) [1] (newOpResult 0 7 none 10 5))
        3 [[1], [2]] (fun l => l.map fun _ => (9, none))).1.length = 2 ∧
    (MultiGet (⟨10, 5, none⟩ : OpCacheConfig Nat)
        (setCachedOpResult (emptyStore Nat Nat) [1] (newOpResult 0 7 none 10 5))
        3 [[1], [2]] (fun l => l.map fun _ => (9, none))).2.1.length = 2 ∧
    ((MultiGet (⟨10, 5, none⟩ : OpCacheConfig Nat)
        (setCachedOpResult (emptyStore Nat Nat) [1] (newOpResult 0 7 none 10 5))
        3 [[1], [2]] (fun l => l.map fun _ => (9, none))).1.get? 0 = some 7 ∧
      (MultiGet (⟨10, 5, none⟩ : OpCacheConfig Nat)
        (setCachedOpResult (emptyStore Nat Nat) [1] (newOpResult 0 7 none 10 5))
        3 [[1], [2]] (fun l => l.map fun _ => (9, none))).2.1.get? 0 = some none) :=
  ⟨(multiGet_shape (⟨10, 5, none⟩ : OpCacheConfig Nat)
      (setCachedOpResult (emptyStore Nat Nat) [1] (newOpResult 0 7 none 10 5))
      3 [[1], [2]] (fun l => l.map fun _ => (9, none))).1,
   (multiGet_shape (⟨10, 5, none⟩ : OpCacheConfig Nat)
      (setCachedOpResult (emptyStore Nat Nat) [1] (newOpResult 0 7 none 10 5))
      3 [[1], [2]] (fun l => l.map fun _ => (9, none))).2.1,
   (multiGet_shape (⟨10, 5, none⟩ : OpCacheConfig Nat)
      (setCachedOpResult (emptyStore Nat Nat) [1] (newOpResult 0 7 none 10 5))
      3 [[1], [2]] (fun l => l.map fun _ => (9, none))).2.2 0 [1]
      (newOpResult 0 7 none 10 5) rfl rfl (by decide)⟩

end Gog
